import Mathlib

/-!
# Custodial wallet bot: key store, import flag and dispatch

A shallow embedding of `src/index.js` and `src/bot.js`.

* The MongoDB collection `users` is a list of documents in insertion order;
  `findOne`, `insertOne` and `updateOne` are the driver operations used by the
  source.  No unique index is declared by the source, so the list may hold
  several documents with the same `userId`.
* The Aptos SDK (`PrivateKey.formatPrivateKey`, `Ed25519PrivateKey`,
  `Account.fromPrivateKey`, `Account.generate`, the two `toString`s) is an
  external library; it is taken as a parameter `Crypto K`.
* Handlers are state-passing functions that return the new state, the list of
  outbound effects in order, and the exception (if any) that ended the call.
-/

namespace MoveBot

/-! ## Documents of the `users` collection -/

/-- One document of the `users` collection.  A field that a writer did not set
is absent (`none`), as in the document store. -/
structure UserDoc where
  userId : String
  publicKey : Option String
  privateKey : Option String
  alertsEnabled : Option Bool
  inProgress : Option Bool
  inGame : Option Bool
deriving DecidableEq, Repr

/-- `collection.findOne({ userId })`: the first document whose `userId` matches. -/
def findOne : List UserDoc → String → Option UserDoc
  | [], _ => none
  | d :: ds, uid => if d.userId = uid then some d else findOne ds uid

/-- `collection.insertOne(doc)`: the document is added to the collection. -/
def insertOne (users : List UserDoc) (d : UserDoc) : List UserDoc :=
  users ++ [d]

/-- `collection.updateOne({ userId }, { $set: ... })`: the first matching
document is modified by `f`; without a match nothing changes. -/
def updateOne : List UserDoc → String → (UserDoc → UserDoc) → List UserDoc
  | [], _, _ => []
  | d :: ds, uid, f => if d.userId = uid then f d :: ds else d :: updateOne ds uid f

/-- `collection.updateOne({ userId }, { $set: ... }, { upsert: true })`: as
`updateOne`, and without a match the document built from the query and the
`$set` fields is inserted. -/
def updateOneUpsert (users : List UserDoc) (uid : String) (f : UserDoc → UserDoc) :
    List UserDoc :=
  match findOne users uid with
  | some _ => updateOne users uid f
  | none =>
    insertOne users (f { userId := uid, publicKey := none, privateKey := none,
                         alertsEnabled := none, inProgress := none, inGame := none })

/-- Number of stored accounts for a `userId`. -/
def accountCount (users : List UserDoc) (uid : String) : Nat :=
  (users.filter (fun d => decide (d.userId = uid))).length

/-! ## The signing library, as a parameter -/

/-- The operations of the Aptos SDK that the source calls, over a type `K` of
private keys. -/
structure Crypto (K : Type) where
  /-- `new Ed25519PrivateKey(PrivateKey.formatPrivateKey(s, Ed25519))`; `none`
  when the constructor throws. -/
  decode : String → Option K
  /-- `Account.fromPrivateKey({ privateKey }).publicKey.toString()`. -/
  pubOf : K → String
  /-- `account.privateKey.toString()`. -/
  privToString : K → String
  /-- `Account.generate()` on the given entropy. -/
  generate : Nat → K

/-- The signing identity `AptosAccount`. -/
structure Account (K : Type) where
  privateKey : K
deriving DecidableEq, Repr

/-- `AptosAccount.publicKey.toString()`. -/
def Account.publicKey {K : Type} (c : Crypto K) (a : Account K) : String :=
  c.pubOf a.privateKey

/-- Exceptions that end a call. -/
inductive Err where
  | keyDecode
deriving DecidableEq, Repr

/-- The persistent store together with the entropy consumed by
`Account.generate()`. -/
structure Store where
  users : List UserDoc
  rng : Nat
deriving DecidableEq, Repr

/-- Decoding of a stored `privateKey` field; an absent field does not decode. -/
def decodeStored {K : Type} (c : Crypto K) (d : UserDoc) : Option K :=
  match d.privateKey with
  | some s => c.decode s
  | none => none

/-- The regular expression `/^[0-9a-fA-F]{64}$/` of `src/index.js`. -/
def isHexChar (ch : Char) : Bool :=
  ('0' ≤ ch && ch ≤ '9') || ('a' ≤ ch && ch ≤ 'f') || ('A' ≤ ch && ch ≤ 'F')

/-- `/^[0-9a-fA-F]{64}$/.test(s)`. -/
def isHex64 (s : String) : Bool :=
  s.data.length == 64 && s.data.all isHexChar

/-! ## `src/index.js` -/

namespace Index

/-- Return value `{ AptosAccount, inProgress }` of `getOrCreateUserWallet`. -/
structure Wallet (K : Type) where
  AptosAccount : Account K
  inProgress : Option Bool
deriving DecidableEq, Repr

/-- The document inserted by `getOrCreateUserWallet` of `src/index.js`. -/
def newUserDoc {K : Type} (c : Crypto K) (uid : String) (a : Account K) : UserDoc :=
  { userId := uid
    publicKey := some (a.publicKey c)
    privateKey := some (c.privToString a.privateKey)
    alertsEnabled := none
    inProgress := some false
    inGame := some false }

/-- `getOrCreateUserWallet(userId)` of `src/index.js`: the result (or the
exception) and the store after the call. -/
def getOrCreateUserWallet {K : Type} (c : Crypto K) (uid : String) (st : Store) :
    Except Err (Wallet K) × Store :=
  match findOne st.users uid with
  | some userDoc =>
    match decodeStored c userDoc with
    | none => (.error .keyDecode, st)
    | some privateKey =>
      (.ok { AptosAccount := { privateKey := privateKey }, inProgress := userDoc.inProgress }, st)
  | none =>
    let AptosAccount : Account K := { privateKey := c.generate st.rng }
    (.ok { AptosAccount := AptosAccount, inProgress := some false },
     { users := insertOne st.users (newUserDoc c uid AptosAccount), rng := st.rng + 1 })

/-- The state of the `src/index.js` process: the store, the module-level
`userImportState` map (keys in insertion order) and the agent memory. -/
structure State where
  store : Store
  userImportState : List (String × Bool)
  /-- The `memorySaver` checkpoints: the messages given to the agent, with
  their thread id, oldest first. -/
  memorySaver : List (String × String)
deriving DecidableEq, Repr

/-- `userImportState.set(userId, v)`. -/
def mapSet (m : List (String × Bool)) (k : String) (v : Bool) : List (String × Bool) :=
  match m with
  | [] => [(k, v)]
  | (k0, v0) :: rest => if k0 = k then (k, v) :: rest else (k0, v0) :: mapSet rest k v

/-- `userImportState.delete(userId)`. -/
def mapDelete (m : List (String × Bool)) (k : String) : List (String × Bool) :=
  m.filter (fun kv => !decide (kv.1 = k))

/-- `userImportState.get(userId)` used as a condition: truthy exactly when the
key is present with value `true`. -/
def awaitingKey (m : List (String × Bool)) (k : String) : Bool :=
  match m.lookup k with
  | some true => true
  | _ => false

end Index

/-! ## Updates, effects and outcomes -/

/-- The part of an update that the handler receives: `ctx.from.id.toString()`,
`ctx.chat.id` and `ctx.message.text`. -/
structure Ctx where
  fromId : String
  chatId : String
  text : String
deriving DecidableEq, Repr

/-- Outbound calls made by a handler. `ctx.reply(t)` and `ctx.replyWithHTML(t)`
are `message ctx.chatId t`; `ctx.telegram.sendMessage(chat, t)` is
`message chat t`. -/
inductive Effect where
  | message (chat : String) (text : String)
  | answerCbQuery
  | sendChatAction (chat : String) (action : String)
  | agentStream (threadId : String) (text : String)
deriving DecidableEq, Repr

/-- What a handler call leaves behind. -/
structure Outcome (σ : Type) where
  state : σ
  out : List Effect
  error : Option Err
deriving DecidableEq, Repr

/-- What `initializeAgent(userId, AptosAccount)` returns: an agent bound to the
signer, and `config.configurable.thread_id`. -/
structure AgentSession (K : Type) where
  signer : Account K
  thread_id : String
deriving DecidableEq, Repr

/-- The reasoning backend behind `agent.stream`: for the signer, the
checkpointed messages, the thread id and the user message, the
`chunk.agent?.messages[0]?.content` of each streamed chunk. -/
abbrev Agent (K : Type) :=
  Account K → List (String × String) → String → String → List (Option String)

/-- The replies of the `for await` loop: one per chunk with truthy content. -/
def chunkReplies (chat : String) : List (Option String) → List Effect
  | [] => []
  | some content :: rest =>
    if content = "" then chunkReplies chat rest
    else Effect.message chat content :: chunkReplies chat rest
  | none :: rest => chunkReplies chat rest

namespace Index

/-- `bot.action("import_account")` of `src/index.js`. -/
def import_account (ctx : Ctx) (st : State) : Outcome State :=
  { state := { st with userImportState := mapSet st.userImportState ctx.fromId true }
    out := [Effect.message ctx.chatId "Send your private key (64-character hex format).",
            Effect.answerCbQuery]
    error := none }

/-- `bot.action("create_account")` of `src/index.js`. -/
def create_account {K : Type} (c : Crypto K) (ctx : Ctx) (st : State) : Outcome State :=
  match getOrCreateUserWallet c ctx.fromId st.store with
  | (.error e, store) => { state := { st with store := store }, out := [], error := some e }
  | (.ok w, store) =>
    { state := { st with store := store }
      out := [Effect.message ctx.chatId
                ("Your new account has been created! Wallet Address: " ++ w.AptosAccount.publicKey c),
              Effect.answerCbQuery]
      error := none }

/-- `initializeAgent(userId, AptosAccount)` of `src/index.js`. -/
def initializeAgent {K : Type} (userId : String) (AptosAccount : Account K) : AgentSession K :=
  { signer := AptosAccount, thread_id := userId }

/-- Lines 121-128 of `src/index.js`: the conversational turn. `sent` holds the
effects already made by the handler. -/
def converse {K : Type} (c : Crypto K) (agent : Agent K) (ctx : Ctx) (st : State)
    (sent : List Effect) : Outcome State :=
  match getOrCreateUserWallet c ctx.fromId st.store with
  | (.error e, store) => { state := { st with store := store }, out := sent, error := some e }
  | (.ok w, store) =>
    let session := initializeAgent ctx.fromId w.AptosAccount
    { state := { st with store := store
                         memorySaver := st.memorySaver ++ [(session.thread_id, ctx.text)] }
      out := sent ++ Effect.agentStream session.thread_id ctx.text ::
               chunkReplies ctx.chatId
                 (agent session.signer st.memorySaver session.thread_id ctx.text)
      error := none }

/-- The `$set` of the import: key pair and status flags. -/
def setImported {K : Type} (c : Crypto K) (a : Account K) (d : UserDoc) : UserDoc :=
  { d with publicKey := some (a.publicKey c)
           privateKey := some (c.privToString a.privateKey)
           inProgress := some false
           inGame := some false }

/-- `bot.on("text")` of `src/index.js`. -/
def onText {K : Type} (c : Crypto K) (agent : Agent K) (ctx : Ctx) (st : State) :
    Outcome State :=
  if awaitingKey st.userImportState ctx.fromId then
    if !isHex64 ctx.text then
      { state := st
        out := [Effect.message ctx.chatId "Invalid private key format. Try again."]
        error := none }
    else
      match c.decode ctx.text with
      | none => { state := st, out := [], error := some .keyDecode }
      | some privateKey =>
        let AptosAccount : Account K := { privateKey := privateKey }
        let store : Store :=
          { st.store with
            users := updateOneUpsert st.store.users ctx.fromId (setImported c AptosAccount) }
        let sent := [Effect.message ctx.chatId
                      ("Account imported! Wallet Address: " ++ AptosAccount.publicKey c)]
        converse c agent ctx
          { st with store := store
                    userImportState := mapDelete st.userImportState ctx.fromId } sent
  else
    converse c agent ctx st []

/-! ### One call of `getOrCreateUserWallet` as atomic store operations

Each `await` of the function is a point where another call may run.  A call is
therefore two atomic steps: the `findOne`, and then everything up to and
including the `insertOne` (or the return on the found branch). -/

/-- Progress of one call of `getOrCreateUserWallet`. -/
inductive Call (K : Type) where
  | start
  | found (userDoc : Option UserDoc)
  | done (r : Except Err (Wallet K))

/-- One atomic step of a call. -/
def Call.step {K : Type} (c : Crypto K) (uid : String) : Call K → Store → Call K × Store
  | .start, st => (.found (findOne st.users uid), st)
  | .found (some userDoc), st =>
    match decodeStored c userDoc with
    | none => (.done (.error .keyDecode), st)
    | some privateKey =>
      (.done (.ok { AptosAccount := { privateKey := privateKey },
                    inProgress := userDoc.inProgress }), st)
  | .found none, st =>
    let AptosAccount : Account K := { privateKey := c.generate st.rng }
    (.done (.ok { AptosAccount := AptosAccount, inProgress := some false }),
     { users := insertOne st.users (newUserDoc c uid AptosAccount), rng := st.rng + 1 })
  | .done r, st => (.done r, st)

/-- Two calls for the same `userId` in flight, and the store. -/
structure Race (K : Type) where
  first : Call K
  second : Call K
  store : Store

/-- Runs a schedule: `false` lets the first call take its next step, `true`
the second. -/
def runSchedule {K : Type} (c : Crypto K) (uid : String) : List Bool → Race K → Race K
  | [], r => r
  | false :: rest, r =>
    let p := Call.step c uid r.first r.store
    runSchedule c uid rest { r with first := p.1, store := p.2 }
  | true :: rest, r =>
    let p := Call.step c uid r.second r.store
    runSchedule c uid rest { r with second := p.1, store := p.2 }

/-- The interleavings of two calls of two steps each. -/
def interleavings : List (List Bool) :=
  [[false, false, true, true], [false, true, false, true], [false, true, true, false],
   [true, false, false, true], [true, false, true, false], [true, true, false, false]]

/-- A schedule in which one call finishes before the other starts. -/
def sequential (s : List Bool) : Bool :=
  s == [false, false, true, true] || s == [true, true, false, false]

end Index

/-! ## `src/bot.js` -/

namespace Bot

/-- Return value `{ AptosAccount, address }` of `getOrCreateUserWallet`. -/
structure Wallet (K : Type) where
  AptosAccount : Account K
  address : Option String
deriving DecidableEq, Repr

/-- The document inserted by `getOrCreateUserWallet` of `src/bot.js`. -/
def newUserDoc {K : Type} (c : Crypto K) (uid : String) (a : Account K) : UserDoc :=
  { userId := uid
    publicKey := some (a.publicKey c)
    privateKey := some (c.privToString a.privateKey)
    alertsEnabled := some false
    inProgress := none
    inGame := none }

/-- `getOrCreateUserWallet(userId)` of `src/bot.js`. -/
def getOrCreateUserWallet {K : Type} (c : Crypto K) (uid : String) (st : Store) :
    Except Err (Wallet K) × Store :=
  match findOne st.users uid with
  | some userDoc =>
    match decodeStored c userDoc with
    | none => (.error .keyDecode, st)
    | some privateKey =>
      (.ok { AptosAccount := { privateKey := privateKey }, address := userDoc.publicKey }, st)
  | none =>
    let AptosAccount : Account K := { privateKey := c.generate st.rng }
    (.ok { AptosAccount := AptosAccount, address := some (AptosAccount.publicKey c) },
     { users := insertOne st.users (newUserDoc c uid AptosAccount), rng := st.rng + 1 })

/-- A template-literal substitution of a string field; an absent field prints
as `undefined`. -/
def render : Option String → String
  | some s => s
  | none => "undefined"

/-- The message of `view_private_key` that carries the key. -/
def privateKeyMessage (privateKey : Option String) : String :=
  "<b>🔑 Your Private Key:</b>\n<code>" ++ render privateKey ++
    "</code>\n\n<b>⚠️ Keep this private! Do NOT share it.</b>"

/-- The notice of `view_private_key` when no document is found. -/
def noPrivateKeyNotice : String :=
  "<b>❌ No private key found.</b>\nPlease create or import an account."

/-- `bot.action("view_private_key")` of `src/bot.js`. -/
def view_private_key (ctx : Ctx) (st : Store) : Outcome Store :=
  match findOne st.users ctx.fromId with
  | some userDoc =>
    { state := st
      out := [Effect.message ctx.fromId (privateKeyMessage userDoc.privateKey),
              Effect.answerCbQuery]
      error := none }
  | none =>
    { state := st
      out := [Effect.message ctx.chatId noPrivateKeyNotice, Effect.answerCbQuery]
      error := none }

/-- The value of `!userDoc.alertsEnabled`: an absent field is falsy. -/
def notAlerts : Option Bool → Bool
  | some true => false
  | _ => true

/-- `bot.action("toggle_alerts")` of `src/bot.js`. -/
def toggle_alerts (ctx : Ctx) (st : Store) : Outcome Store :=
  match findOne st.users ctx.fromId with
  | none =>
    { state := st
      out := [Effect.message ctx.chatId
                "<b>❌ No account found.</b>\nPlease create or import an account."]
      error := none }
  | some userDoc =>
    let newAlertStatus := notAlerts userDoc.alertsEnabled
    { state := { st with users := updateOne st.users ctx.fromId
                                    (fun d => { d with alertsEnabled := some newAlertStatus }) }
      out := [Effect.message ctx.chatId
                (if newAlertStatus then
                  "<b>🔔 Alerts Enabled!</b>\nYou will receive notifications for transactions."
                 else
                  "<b>🔕 Alerts Disabled!</b>\nYou will no longer receive notifications."),
              Effect.answerCbQuery]
      error := none }

end Bot

/-! ## A concrete signing library for closed examples -/

/-- The sixteen lower-case hexadecimal digits. -/
def hexDigit (d : Nat) : Char :=
  match d with
  | 0 => '0' | 1 => '1' | 2 => '2' | 3 => '3' | 4 => '4' | 5 => '5' | 6 => '6' | 7 => '7'
  | 8 => '8' | 9 => '9' | 10 => 'a' | 11 => 'b' | 12 => 'c' | 13 => 'd' | 14 => 'e' | _ => 'f'

/-- The 64 hexadecimal digits of `n` modulo `2^256`, least significant first. -/
def hexKey (n : Nat) : String :=
  String.mk ((List.range 64).map (fun i => hexDigit (n / 16 ^ i % 16)))

/-- A stand-in for the SDK over textual keys: a key decodes exactly when it is
64 hexadecimal characters, prints as itself, and its public key is the text
with a marker in front. -/
def hexCrypto : Crypto String where
  decode := fun s => if isHex64 s then some s else none
  pubOf := fun k => "0xpub" ++ k
  privToString := fun k => k
  generate := hexKey

/-- The contract of the SDK that the source relies on: a 64-character
hexadecimal string is a key, and a key that was decoded or generated is read
back from its printed form. -/
def Crypto.Lawful {K : Type} (c : Crypto K) : Prop :=
  (∀ s, isHex64 s = true → ∃ k, c.decode s = some k) ∧
  (∀ s k, c.decode s = some k → c.decode (c.privToString k) = some k) ∧
  (∀ n, c.decode (c.privToString (c.generate n)) = some (c.generate n))

/-- The key `"11" * 32` of the specification's import scenario. -/
def key11 : String := String.mk (List.replicate 64 '1')

/-! ## Concrete stores and updates for closed examples -/

/-- An agent that answers every message with one text chunk, one chunk
without content and one empty chunk. -/
def echoAgent : Agent String := fun _ _ _ text => [some ("echo " ++ text), none, some ""]

/-- A text message from user `u1` in their direct chat. -/
def u1Text (text : String) : Ctx := { fromId := "u1", chatId := "u1", text := text }

/-- A button press by user `u1` in the group chat `g7`. -/
def u1InGroup : Ctx := { fromId := "u1", chatId := "g7", text := "" }

/-- An account of `u1` whose stored private key is not a key. -/
def corruptDoc : UserDoc :=
  { userId := "u1", publicKey := some "0xpubzz", privateKey := some "zz",
    alertsEnabled := none, inProgress := some false, inGame := some false }

/-- The account that `src/index.js` stores for `u1` on entropy `n`. -/
def indexDoc (n : Nat) : UserDoc :=
  Index.newUserDoc hexCrypto "u1" { privateKey := hexKey n }

/-- The account that `src/bot.js` stores for `u2` on entropy `n`. -/
def botDoc (n : Nat) : UserDoc :=
  Bot.newUserDoc hexCrypto "u2" { privateKey := hexKey n }

/-- An empty store. -/
def emptyStore : Store := { users := [], rng := 0 }

/-- The `src/index.js` state at start-up on an empty store. -/
def freshState : Index.State :=
  { store := emptyStore, userImportState := [], memorySaver := [] }

/-- The `src/index.js` state right after `u1` pressed "import account" on an
empty store. -/
def awaitingU1 : Index.State :=
  (Index.import_account u1InGroup freshState).state

/-! ## Lemmas on the store operations -/

theorem findOne_userId {users : List UserDoc} {uid : String} {d : UserDoc}
    (h : findOne users uid = some d) : d.userId = uid := by
  induction users with
  | nil => simp [findOne] at h
  | cons e es ih =>
    unfold findOne at h
    split at h
    · cases h; assumption
    · exact ih h

theorem findOne_insertOne_of_found {users : List UserDoc} {uid : String} {d : UserDoc}
    (e : UserDoc) (h : findOne users uid = some d) :
    findOne (insertOne users e) uid = some d := by
  induction users with
  | nil => simp [findOne] at h
  | cons x xs ih =>
    unfold findOne at h
    simp only [insertOne, List.cons_append]
    unfold findOne
    split
    · rename_i hx; simpa [hx] using h
    · rename_i hx; simp only [hx, if_false] at h; exact ih h

theorem findOne_insertOne_of_none {users : List UserDoc} {uid : String}
    (e : UserDoc) (h : findOne users uid = none) (he : e.userId = uid) :
    findOne (insertOne users e) uid = some e := by
  induction users with
  | nil => simp [findOne, insertOne, he]
  | cons x xs ih =>
    unfold findOne at h
    simp only [insertOne, List.cons_append]
    unfold findOne
    split
    · rename_i hx; simp [hx] at h
    · rename_i hx; simp only [hx, if_false] at h; exact ih h

theorem accountCount_eq_zero_of_none {users : List UserDoc} {uid : String}
    (h : findOne users uid = none) : accountCount users uid = 0 := by
  induction users with
  | nil => rfl
  | cons x xs ih =>
    unfold findOne at h
    by_cases hx : x.userId = uid
    · simp [hx] at h
    · simp only [hx, if_false] at h
      have := ih h
      simp only [accountCount] at this ⊢
      simp [List.filter_cons, hx, this]

theorem accountCount_pos_of_found {users : List UserDoc} {uid : String} {d : UserDoc}
    (h : findOne users uid = some d) : 0 < accountCount users uid := by
  induction users with
  | nil => simp [findOne] at h
  | cons x xs ih =>
    unfold findOne at h
    by_cases hx : x.userId = uid
    · simp [accountCount, List.filter_cons, hx]
    · simp only [hx, if_false] at h
      have := ih h
      simp only [accountCount] at this ⊢
      simpa [List.filter_cons, hx] using this

theorem accountCount_insertOne (users : List UserDoc) (uid : String) (e : UserDoc) :
    accountCount (insertOne users e) uid =
      accountCount users uid + (if e.userId = uid then 1 else 0) := by
  by_cases he : e.userId = uid <;> simp [accountCount, insertOne, List.filter_append, he]

theorem accountCount_append_new {users : List UserDoc} {uid : String} (e : UserDoc)
    (h : findOne users uid = none) (he : e.userId = uid) :
    accountCount (users ++ [e]) uid = 1 := by
  have h0 := accountCount_eq_zero_of_none h
  have h1 := accountCount_insertOne users uid e
  simp only [insertOne] at h1
  rw [h1, h0, if_pos he]

theorem findOne_updateOne {users : List UserDoc} {uid : String} {d : UserDoc}
    (f : UserDoc → UserDoc) (h : findOne users uid = some d) (hf : (f d).userId = uid) :
    findOne (updateOne users uid f) uid = some (f d) := by
  induction users with
  | nil => simp [findOne] at h
  | cons x xs ih =>
    unfold findOne at h
    unfold updateOne
    by_cases hx : x.userId = uid
    · simp only [hx, if_true] at h ⊢
      cases h
      simp [findOne, hf]
    · simp only [hx, if_false] at h ⊢
      simp only [findOne, hx, if_false]
      exact ih h

theorem updateOne_of_fixed {users : List UserDoc} {uid : String} {d : UserDoc}
    (f : UserDoc → UserDoc) (h : findOne users uid = some d) (hf : f d = d) :
    updateOne users uid f = users := by
  induction users with
  | nil => rfl
  | cons x xs ih =>
    unfold findOne at h
    unfold updateOne
    by_cases hx : x.userId = uid
    · simp only [hx, if_true] at h ⊢
      cases h
      rw [hf]
    · simp only [hx, if_false] at h ⊢
      rw [ih h]

theorem updateOne_updateOne {users : List UserDoc} {uid : String} {d : UserDoc}
    (f g : UserDoc → UserDoc) (h : findOne users uid = some d) (hf : (f d).userId = uid) :
    updateOne (updateOne users uid f) uid g = updateOne users uid (fun x => g (f x)) := by
  induction users with
  | nil => rfl
  | cons x xs ih =>
    unfold findOne at h
    by_cases hx : x.userId = uid
    · simp only [hx, if_true] at h
      cases h
      simp [updateOne, hx, hf]
    · simp only [hx, if_false] at h
      simp only [updateOne, hx, if_false]
      rw [ih h]

theorem accountCount_updateOne (users : List UserDoc) (uid : String) (f : UserDoc → UserDoc)
    (hf : ∀ d, (f d).userId = d.userId) :
    accountCount (updateOne users uid f) uid = accountCount users uid := by
  induction users with
  | nil => rfl
  | cons x xs ih =>
    unfold updateOne
    by_cases hx : x.userId = uid
    · simp [accountCount, List.filter_cons, hx, hf]
    · simp only [hx, if_false]
      simp only [accountCount] at ih ⊢
      simp [List.filter_cons, hx, ih]

theorem isHex64_iff (s : String) :
    isHex64 s = true ↔ s.length = 64 ∧ ∀ ch ∈ s.data, isHexChar ch = true := by
  cases s with
  | mk data =>
    show (data.length == 64 && data.all isHexChar) = true ↔ _
    rw [Bool.and_eq_true, beq_iff_eq, List.all_eq_true]
    exact Iff.rfl

theorem hexDigit_isHexChar (d : Nat) : isHexChar (hexDigit d) = true := by
  unfold hexDigit
  split <;> decide

theorem isHex64_hexKey (n : Nat) : isHex64 (hexKey n) = true := by
  rw [isHex64_iff]
  constructor
  · simp [hexKey, String.length]
  · intro ch hch
    simp only [hexKey, List.mem_map] at hch
    obtain ⟨i, _, rfl⟩ := hch
    exact hexDigit_isHexChar _

theorem hexCrypto_lawful : hexCrypto.Lawful := by
  refine ⟨?_, ?_, ?_⟩
  · intro s hs
    exact ⟨s, by simp [hexCrypto, hs]⟩
  · intro s k h
    simp only [hexCrypto] at h ⊢
    split at h
    · cases h; rename_i hs; simp [hs]
    · cases h
  · intro n
    simp [hexCrypto, isHex64_hexKey]

/-! ## Key store of `src/index.js` -/

/-- C1: with the import flag set for the sender, a text that is not exactly 64
hexadecimal characters gets the invalid-format reply and nothing else happens:
the whole state, and so the stored collection, is the one before the message. -/
theorem onText_invalid_key_rejected {K : Type} (c : Crypto K) (agent : Agent K) (ctx : Ctx)
    (st : Index.State)
    (hflag : Index.awaitingKey st.userImportState ctx.fromId = true)
    (hbad : ¬ (ctx.text.length = 64 ∧ ∀ ch ∈ ctx.text.data, isHexChar ch = true)) :
    Index.onText c agent ctx st =
      { state := st
        out := [Effect.message ctx.chatId "Invalid private key format. Try again."]
        error := none } := by
  have h : isHex64 ctx.text = false := by
    rw [← Bool.not_eq_true, isHex64_iff]; exact hbad
  simp [Index.onText, hflag, h]

theorem onText_invalid_key_rejected_witness :
    Index.awaitingKey awaitingU1.userImportState (u1Text "abc").fromId = true ∧
    Index.onText hexCrypto echoAgent (u1Text "abc") awaitingU1 =
      { state := awaitingU1
        out := [Effect.message "u1" "Invalid private key format. Try again."]
        error := none } :=
  ⟨by decide,
   onText_invalid_key_rejected hexCrypto echoAgent (u1Text "abc") awaitingU1 (by decide)
     (by decide)⟩

/-- C6: when the account found for the user has private-key material that does
not decode, `getOrCreateUserWallet` ends with the key-decode error and the
store after the call is the store before it: no document is inserted or
overwritten and no entropy is consumed for a fresh key pair. -/
theorem getOrCreateUserWallet_malformed_key_fails {K : Type} (c : Crypto K) (uid : String)
    (st : Store) (userDoc : UserDoc)
    (hfound : findOne st.users uid = some userDoc)
    (hbad : decodeStored c userDoc = none) :
    Index.getOrCreateUserWallet c uid st = (.error .keyDecode, st) := by
  simp [Index.getOrCreateUserWallet, hfound, hbad]

theorem getOrCreateUserWallet_malformed_key_fails_witness :
    findOne [corruptDoc] "u1" = some corruptDoc ∧
    decodeStored hexCrypto corruptDoc = none ∧
    Index.getOrCreateUserWallet hexCrypto "u1" { users := [corruptDoc], rng := 3 } =
      (.error .keyDecode, { users := [corruptDoc], rng := 3 }) :=
  ⟨by decide, by decide,
   getOrCreateUserWallet_malformed_key_fails hexCrypto "u1" { users := [corruptDoc], rng := 3 }
     corruptDoc (by decide) (by decide)⟩

theorem getOrCreateUserWallet_of_none {K : Type} (c : Crypto K) (uid : String) (st : Store)
    (h : findOne st.users uid = none) :
    Index.getOrCreateUserWallet c uid st =
      (.ok { AptosAccount := { privateKey := c.generate st.rng }, inProgress := some false },
       { users := st.users ++ [Index.newUserDoc c uid { privateKey := c.generate st.rng }],
         rng := st.rng + 1 }) := by
  simp [Index.getOrCreateUserWallet, h, insertOne]

/-- The record of `src/bot.js`: `alertsEnabled` false and no status flags. -/
theorem bot_getOrCreateUserWallet_of_none {K : Type} (c : Crypto K) (uid : String) (st : Store)
    (h : findOne st.users uid = none) :
    (Bot.getOrCreateUserWallet c uid st).2.users =
      st.users ++
        [{ userId := uid
           publicKey := some (c.pubOf (c.generate st.rng))
           privateKey := some (c.privToString (c.generate st.rng))
           alertsEnabled := some false
           inProgress := none
           inGame := none }] := by
  simp [Bot.getOrCreateUserWallet, h, insertOne, Bot.newUserDoc, Account.publicKey]

theorem getOrCreateUserWallet_of_found {K : Type} (c : Crypto K) (uid : String) (st : Store)
    (d : UserDoc) (k : K) (h : findOne st.users uid = some d) (hk : decodeStored c d = some k) :
    Index.getOrCreateUserWallet c uid st =
      (.ok { AptosAccount := { privateKey := k }, inProgress := d.inProgress }, st) := by
  simp [Index.getOrCreateUserWallet, h, hk]

/-- C8, as amended: for a user without a stored account,
`getOrCreateUserWallet` of `src/index.js` returns the freshly generated key
pair and adds exactly one document for that user; the document holds the
public and private key of that same key pair, `inProgress` and `inGame` false,
and no `alertsEnabled` field. -/
theorem getOrCreateUserWallet_creates_record {K : Type} (c : Crypto K) (uid : String)
    (st : Store) (hnone : findOne st.users uid = none) :
    ∃ w : Index.Wallet K,
      (Index.getOrCreateUserWallet c uid st).1 = .ok w ∧
      w.AptosAccount.privateKey = c.generate st.rng ∧
      (Index.getOrCreateUserWallet c uid st).2.users =
        st.users ++
          [{ userId := uid
             publicKey := some (w.AptosAccount.publicKey c)
             privateKey := some (c.privToString w.AptosAccount.privateKey)
             alertsEnabled := none
             inProgress := some false
             inGame := some false }] ∧
      accountCount (Index.getOrCreateUserWallet c uid st).2.users uid = 1 := by
  rw [getOrCreateUserWallet_of_none c uid st hnone]
  exact ⟨_, rfl, rfl, rfl, accountCount_append_new _ hnone rfl⟩

theorem getOrCreateUserWallet_creates_record_witness :
    findOne [botDoc 4] "u1" = none ∧
    ∃ w : Index.Wallet String,
      (Index.getOrCreateUserWallet hexCrypto "u1" { users := [botDoc 4], rng := 9 }).1 = .ok w ∧
      w.AptosAccount.privateKey = hexCrypto.generate 9 ∧
      (Index.getOrCreateUserWallet hexCrypto "u1" { users := [botDoc 4], rng := 9 }).2.users =
        [botDoc 4] ++
          [{ userId := "u1"
             publicKey := some (w.AptosAccount.publicKey hexCrypto)
             privateKey := some (hexCrypto.privToString w.AptosAccount.privateKey)
             alertsEnabled := none
             inProgress := some false
             inGame := some false }] ∧
      accountCount
        (Index.getOrCreateUserWallet hexCrypto "u1" { users := [botDoc 4], rng := 9 }).2.users
        "u1" = 1 :=
  ⟨by decide,
   getOrCreateUserWallet_creates_record hexCrypto "u1" { users := [botDoc 4], rng := 9 }
     (by decide)⟩

/-- C8, the claim as written fails: on the empty store the record that
`getOrCreateUserWallet` of `src/index.js` persists for `u1` has no
`alertsEnabled` field, so no stored record of `u1` has `alertsEnabled` false. -/
theorem getOrCreateUserWallet_record_counterexample :
    findOne emptyStore.users "u1" = none ∧
    (Index.getOrCreateUserWallet hexCrypto "u1" emptyStore).2.users = [indexDoc 0] ∧
    (indexDoc 0).alertsEnabled = none ∧
    ¬ ∃ d ∈ (Index.getOrCreateUserWallet hexCrypto "u1" emptyStore).2.users,
        d.userId = "u1" ∧ d.alertsEnabled = some false := by
  decide

/-- C5, as amended: when the user has no account, or the account found for the
user has a private key that decodes, two calls of `getOrCreateUserWallet` in
sequence both return a signing identity, with the same public key, and the
second call leaves the store as the first left it; if the collection held at
most one account of the user before, it holds exactly one after both calls. -/
theorem getOrCreateUserWallet_twice {K : Type} (c : Crypto K) (hc : c.Lawful) (uid : String)
    (st : Store)
    (hkey : ∀ d, findOne st.users uid = some d → ∃ k, decodeStored c d = some k) :
    ∃ w1 w2 : Index.Wallet K,
      (Index.getOrCreateUserWallet c uid st).1 = .ok w1 ∧
      (Index.getOrCreateUserWallet c uid (Index.getOrCreateUserWallet c uid st).2).1 = .ok w2 ∧
      w1.AptosAccount.publicKey c = w2.AptosAccount.publicKey c ∧
      (Index.getOrCreateUserWallet c uid (Index.getOrCreateUserWallet c uid st).2).2 =
        (Index.getOrCreateUserWallet c uid st).2 ∧
      (accountCount st.users uid ≤ 1 →
        accountCount
          (Index.getOrCreateUserWallet c uid (Index.getOrCreateUserWallet c uid st).2).2.users
          uid = 1) := by
  cases hfind : findOne st.users uid with
  | some d =>
    obtain ⟨k, hk⟩ := hkey d hfind
    have h1 := getOrCreateUserWallet_of_found c uid st d k hfind hk
    have e2 : Index.getOrCreateUserWallet c uid (Index.getOrCreateUserWallet c uid st).2 =
        (.ok { AptosAccount := { privateKey := k }, inProgress := d.inProgress }, st) := by
      rw [h1]; exact h1
    rw [e2, h1]
    refine ⟨_, _, rfl, rfl, rfl, rfl, ?_⟩
    intro hle
    have := accountCount_pos_of_found hfind
    show accountCount st.users uid = 1
    omega
  | none =>
    have h1 := getOrCreateUserWallet_of_none c uid st hfind
    have hdoc : findOne (st.users ++ [Index.newUserDoc c uid { privateKey := c.generate st.rng }])
        uid = some (Index.newUserDoc c uid { privateKey := c.generate st.rng }) :=
      findOne_insertOne_of_none _ hfind rfl
    have hdec : decodeStored c (Index.newUserDoc c uid { privateKey := c.generate st.rng }) =
        some (c.generate st.rng) := by
      simp [decodeStored, Index.newUserDoc, hc.2.2]
    have h2 := getOrCreateUserWallet_of_found c uid
      { users := st.users ++ [Index.newUserDoc c uid { privateKey := c.generate st.rng }],
        rng := st.rng + 1 } _ _ hdoc hdec
    have e2 : Index.getOrCreateUserWallet c uid (Index.getOrCreateUserWallet c uid st).2 =
        (.ok { AptosAccount := { privateKey := c.generate st.rng }, inProgress := some false },
         { users := st.users ++ [Index.newUserDoc c uid { privateKey := c.generate st.rng }],
           rng := st.rng + 1 }) := by
      rw [h1]; exact h2
    rw [e2, h1]
    exact ⟨_, _, rfl, rfl, rfl, rfl, fun _ => accountCount_append_new _ hfind rfl⟩

theorem getOrCreateUserWallet_twice_witness :
    hexCrypto.Lawful ∧
    (∀ d, findOne [indexDoc 5] "u1" = some d → ∃ k, decodeStored hexCrypto d = some k) ∧
    ∃ w1 w2 : Index.Wallet String,
      (Index.getOrCreateUserWallet hexCrypto "u1" { users := [indexDoc 5], rng := 6 }).1 = .ok w1 ∧
      (Index.getOrCreateUserWallet hexCrypto "u1"
        (Index.getOrCreateUserWallet hexCrypto "u1" { users := [indexDoc 5], rng := 6 }).2).1 =
          .ok w2 ∧
      w1.AptosAccount.publicKey hexCrypto = w2.AptosAccount.publicKey hexCrypto ∧
      (Index.getOrCreateUserWallet hexCrypto "u1"
        (Index.getOrCreateUserWallet hexCrypto "u1" { users := [indexDoc 5], rng := 6 }).2).2 =
        (Index.getOrCreateUserWallet hexCrypto "u1" { users := [indexDoc 5], rng := 6 }).2 ∧
      (accountCount [indexDoc 5] "u1" ≤ 1 →
        accountCount
          (Index.getOrCreateUserWallet hexCrypto "u1"
            (Index.getOrCreateUserWallet hexCrypto "u1"
              { users := [indexDoc 5], rng := 6 }).2).2.users "u1" = 1) :=
  have hkey : ∀ d, findOne [indexDoc 5] "u1" = some d →
      ∃ k, decodeStored hexCrypto d = some k := by
    intro d hd
    have h5 : findOne [indexDoc 5] "u1" = some (indexDoc 5) := by decide
    rw [h5] at hd
    cases hd
    exact ⟨hexKey 5, by decide⟩
  ⟨hexCrypto_lawful, hkey,
   getOrCreateUserWallet_twice hexCrypto hexCrypto_lawful "u1"
     { users := [indexDoc 5], rng := 6 } hkey⟩

/-- C5, the claim as written fails on two states of the collection. When the
account of `u1` holds a private key that does not decode, both calls end with
the key-decode error and return no signing identity. When the collection holds
two accounts of `u1`, it still holds two after both calls. -/
theorem getOrCreateUserWallet_twice_counterexample :
    (Index.getOrCreateUserWallet hexCrypto "u1" { users := [corruptDoc], rng := 0 }).1 =
      .error .keyDecode ∧
    (Index.getOrCreateUserWallet hexCrypto "u1"
      (Index.getOrCreateUserWallet hexCrypto "u1" { users := [corruptDoc], rng := 0 }).2).1 =
      .error .keyDecode ∧
    accountCount
      (Index.getOrCreateUserWallet hexCrypto "u1"
        (Index.getOrCreateUserWallet hexCrypto "u1"
          { users := [indexDoc 1, indexDoc 2], rng := 3 }).2).2.users "u1" = 2 :=
  ⟨rfl, rfl, by decide⟩

/-! ## Import flag and text handler of `src/index.js` -/

theorem awaitingKey_mapSet (m : List (String × Bool)) (k : String) :
    Index.awaitingKey (Index.mapSet m k true) k = true := by
  induction m with
  | nil => simp [Index.mapSet, Index.awaitingKey, List.lookup]
  | cons kv rest ih =>
    obtain ⟨k0, v0⟩ := kv
    unfold Index.mapSet
    by_cases h : k0 = k
    · simp [h, Index.awaitingKey, List.lookup]
    · have hne : (k == k0) = false := by
        rw [beq_eq_false_iff_ne]; exact fun e => h e.symm
      simp only [h, if_false]
      unfold Index.awaitingKey at ih ⊢
      simpa [List.lookup, hne] using ih

theorem lookup_mapDelete (m : List (String × Bool)) (k : String) :
    (Index.mapDelete m k).lookup k = none := by
  induction m with
  | nil => rfl
  | cons kv rest ih =>
    obtain ⟨k0, v0⟩ := kv
    unfold Index.mapDelete at ih ⊢
    by_cases h : k0 = k
    · simpa [List.filter_cons, h] using ih
    · have hne : (k == k0) = false := by
        rw [beq_eq_false_iff_ne]; exact fun e => h e.symm
      simpa [List.filter_cons, h, List.lookup, hne] using ih

theorem awaitingKey_mapDelete (m : List (String × Bool)) (k : String) :
    Index.awaitingKey (Index.mapDelete m k) k = false := by
  simp [Index.awaitingKey, lookup_mapDelete]

theorem findOne_updateOneUpsert (users : List UserDoc) (uid : String) (f : UserDoc → UserDoc)
    (hf : ∀ d, (f d).userId = d.userId) :
    ∃ d0, d0.userId = uid ∧ findOne (updateOneUpsert users uid f) uid = some (f d0) := by
  unfold updateOneUpsert
  cases h : findOne users uid with
  | some d =>
    have hd := findOne_userId h
    exact ⟨d, hd, findOne_updateOne f h (by rw [hf, hd])⟩
  | none =>
    exact ⟨_, rfl, findOne_insertOne_of_none _ h (by rw [hf])⟩

/-- The outcome of the text handler on a key that passes the format check and
decodes, for a user whose import flag is set. -/
theorem onText_import_outcome {K : Type} (c : Crypto K) (hc : c.Lawful) (agent : Agent K)
    (ctx : Ctx) (st : Index.State) (k : K)
    (hflag : Index.awaitingKey st.userImportState ctx.fromId = true)
    (hkey : isHex64 ctx.text = true) (hk : c.decode ctx.text = some k) :
    Index.onText c agent ctx st =
      { state :=
          { store := { users := updateOneUpsert st.store.users ctx.fromId
                                  (Index.setImported c { privateKey := k })
                       rng := st.store.rng }
            userImportState := Index.mapDelete st.userImportState ctx.fromId
            memorySaver := st.memorySaver ++ [(ctx.fromId, ctx.text)] }
        out := Effect.message ctx.chatId ("Account imported! Wallet Address: " ++ c.pubOf k) ::
                 Effect.agentStream ctx.fromId ctx.text ::
                   chunkReplies ctx.chatId
                     (agent { privateKey := k } st.memorySaver ctx.fromId ctx.text)
        error := none } := by
  obtain ⟨d0, _, hd0⟩ := findOne_updateOneUpsert st.store.users ctx.fromId
    (Index.setImported c { privateKey := k }) (fun _ => rfl)
  have hdec : decodeStored c (Index.setImported c { privateKey := k } d0) = some k := by
    simp only [decodeStored, Index.setImported]
    exact hc.2.1 _ _ hk
  have hg := getOrCreateUserWallet_of_found c ctx.fromId
    { users := updateOneUpsert st.store.users ctx.fromId (Index.setImported c { privateKey := k })
      rng := st.store.rng } _ k hd0 hdec
  simp [Index.onText, hflag, hkey, hk, Index.converse, hg, Account.publicKey,
    Index.initializeAgent]

/-- C2: with the import flag set for the sender, a text of 64 hexadecimal
characters is imported without error: the reply reports the public key derived
from it, the account found for the sender afterwards stores that public key
together with the printed private key, and `getOrCreateUserWallet` on the
resulting store returns a signing identity with that same public key and leaves
the store alone; the store before the import is arbitrary, with or without an
account of the sender. -/
theorem import_then_getOrCreate {K : Type} (c : Crypto K) (hc : c.Lawful) (agent : Agent K)
    (ctx : Ctx) (st : Index.State)
    (hflag : Index.awaitingKey st.userImportState ctx.fromId = true)
    (hkey : isHex64 ctx.text = true) :
    ∃ k : K, c.decode ctx.text = some k ∧
      (Index.onText c agent ctx st).error = none ∧
      Effect.message ctx.chatId ("Account imported! Wallet Address: " ++ c.pubOf k) ∈
        (Index.onText c agent ctx st).out ∧
      (∃ d, findOne (Index.onText c agent ctx st).state.store.users ctx.fromId = some d ∧
            d.publicKey = some (c.pubOf k) ∧ d.privateKey = some (c.privToString k)) ∧
      ∃ w : Index.Wallet K,
        Index.getOrCreateUserWallet c ctx.fromId (Index.onText c agent ctx st).state.store =
          (.ok w, (Index.onText c agent ctx st).state.store) ∧
        w.AptosAccount.publicKey c = c.pubOf k := by
  obtain ⟨k, hk⟩ := hc.1 _ hkey
  refine ⟨k, hk, ?_⟩
  rw [onText_import_outcome c hc agent ctx st k hflag hkey hk]
  obtain ⟨d0, _, hd0⟩ := findOne_updateOneUpsert st.store.users ctx.fromId
    (Index.setImported c { privateKey := k }) (fun _ => rfl)
  have hdec : decodeStored c (Index.setImported c { privateKey := k } d0) = some k := by
    simp only [decodeStored, Index.setImported]
    exact hc.2.1 _ _ hk
  refine ⟨rfl, List.mem_cons_self _ _, ⟨_, hd0, rfl, rfl⟩, ?_⟩
  exact ⟨_, getOrCreateUserWallet_of_found c ctx.fromId _ _ k hd0 hdec, rfl⟩

theorem import_then_getOrCreate_witness :
    hexCrypto.Lawful ∧
    Index.awaitingKey awaitingU1.userImportState (u1Text key11).fromId = true ∧
    isHex64 (u1Text key11).text = true ∧
    ∃ k : String, hexCrypto.decode (u1Text key11).text = some k ∧
      (Index.onText hexCrypto echoAgent (u1Text key11) awaitingU1).error = none ∧
      Effect.message (u1Text key11).chatId
          ("Account imported! Wallet Address: " ++ hexCrypto.pubOf k) ∈
        (Index.onText hexCrypto echoAgent (u1Text key11) awaitingU1).out ∧
      (∃ d, findOne (Index.onText hexCrypto echoAgent (u1Text key11) awaitingU1).state.store.users
              (u1Text key11).fromId = some d ∧
            d.publicKey = some (hexCrypto.pubOf k) ∧
            d.privateKey = some (hexCrypto.privToString k)) ∧
      ∃ w : Index.Wallet String,
        Index.getOrCreateUserWallet hexCrypto (u1Text key11).fromId
            (Index.onText hexCrypto echoAgent (u1Text key11) awaitingU1).state.store =
          (.ok w, (Index.onText hexCrypto echoAgent (u1Text key11) awaitingU1).state.store) ∧
        w.AptosAccount.publicKey hexCrypto = hexCrypto.pubOf k :=
  ⟨hexCrypto_lawful, by decide, by decide,
   import_then_getOrCreate hexCrypto hexCrypto_lawful echoAgent (u1Text key11) awaitingU1
     (by decide) (by decide)⟩

/-- C3, as amended: after `import_account` the user is awaiting a key. A text
from that user that is a well-formed key clears the flag, and the next text
from that user is handled as a conversational turn. A text that is not a
well-formed key leaves the whole state as it was, flag included, and a next
text that is again not a key gets the invalid-format reply and no agent call. -/
theorem import_flag_after_one_message {K : Type} (c : Crypto K) (hc : c.Lawful)
    (agent : Agent K) (press msg next : Ctx) (st : Index.State)
    (hmsg : msg.fromId = press.fromId) (hnext : next.fromId = press.fromId) :
    Index.awaitingKey (Index.import_account press st).state.userImportState press.fromId = true ∧
    (isHex64 msg.text = true →
      Index.awaitingKey
          (Index.onText c agent msg (Index.import_account press st).state).state.userImportState
          press.fromId = false ∧
      Index.onText c agent next (Index.onText c agent msg (Index.import_account press st).state).state =
        Index.converse c agent next
          (Index.onText c agent msg (Index.import_account press st).state).state []) ∧
    (isHex64 msg.text = false →
      (Index.onText c agent msg (Index.import_account press st).state).state =
          (Index.import_account press st).state ∧
      (isHex64 next.text = false →
        Index.onText c agent next (Index.onText c agent msg (Index.import_account press st).state).state =
          { state := (Index.import_account press st).state
            out := [Effect.message next.chatId "Invalid private key format. Try again."]
            error := none })) := by
  have hset : Index.awaitingKey (Index.import_account press st).state.userImportState
      press.fromId = true := awaitingKey_mapSet _ _
  refine ⟨hset, ?_, ?_⟩
  · intro hkey
    obtain ⟨k, hk⟩ := hc.1 _ hkey
    have hflag : Index.awaitingKey (Index.import_account press st).state.userImportState
        msg.fromId = true := by rw [hmsg]; exact hset
    rw [onText_import_outcome c hc agent msg _ k hflag hkey hk]
    have hoff : Index.awaitingKey
        (Index.mapDelete (Index.import_account press st).state.userImportState msg.fromId)
        press.fromId = false := by
      rw [hmsg]; exact awaitingKey_mapDelete _ _
    refine ⟨hoff, ?_⟩
    have hoff2 : Index.awaitingKey
        (Index.mapDelete (Index.import_account press st).state.userImportState msg.fromId)
        next.fromId = false := by rw [hnext]; exact hoff
    simp [Index.onText, hoff2]
  · intro hbad
    have hflag : Index.awaitingKey (Index.import_account press st).state.userImportState
        msg.fromId = true := by rw [hmsg]; exact hset
    have h1 : Index.onText c agent msg (Index.import_account press st).state =
        { state := (Index.import_account press st).state
          out := [Effect.message msg.chatId "Invalid private key format. Try again."]
          error := none } := by
      simp [Index.onText, hflag, hbad]
    rw [h1]
    refine ⟨rfl, ?_⟩
    intro hbad2
    have hflag2 : Index.awaitingKey (Index.import_account press st).state.userImportState
        next.fromId = true := by rw [hnext]; exact hset
    simp [Index.onText, hflag2, hbad2]

theorem import_flag_after_one_message_witness :
    hexCrypto.Lawful ∧ (u1Text key11).fromId = u1InGroup.fromId ∧
    (u1Text "What is my balance?").fromId = u1InGroup.fromId ∧
    isHex64 (u1Text key11).text = true ∧
    Index.awaitingKey
        (Index.onText hexCrypto echoAgent (u1Text key11)
          (Index.import_account u1InGroup freshState).state).state.userImportState
        u1InGroup.fromId = false ∧
    Index.onText hexCrypto echoAgent (u1Text "What is my balance?")
        (Index.onText hexCrypto echoAgent (u1Text key11)
          (Index.import_account u1InGroup freshState).state).state =
      Index.converse hexCrypto echoAgent (u1Text "What is my balance?")
        (Index.onText hexCrypto echoAgent (u1Text key11)
          (Index.import_account u1InGroup freshState).state).state [] :=
  ⟨hexCrypto_lawful, rfl, rfl, by decide,
   (import_flag_after_one_message hexCrypto hexCrypto_lawful echoAgent u1InGroup (u1Text key11)
     (u1Text "What is my balance?") freshState rfl rfl).2.1
     (by decide)⟩

/-- C3, the claim as written fails: after `import_account`, the text `abc`
from `u1` leaves `u1` awaiting a key, and the second text is answered with the
invalid-format reply and is not handled as a conversational turn. -/
theorem import_flag_counterexample :
    Index.awaitingKey
        (Index.onText hexCrypto echoAgent (u1Text "abc") awaitingU1).state.userImportState
        "u1" = true ∧
    Index.onText hexCrypto echoAgent (u1Text "What is my balance?")
        (Index.onText hexCrypto echoAgent (u1Text "abc") awaitingU1).state =
      { state := awaitingU1
        out := [Effect.message "u1" "Invalid private key format. Try again."]
        error := none } ∧
    Index.onText hexCrypto echoAgent (u1Text "What is my balance?")
        (Index.onText hexCrypto echoAgent (u1Text "abc") awaitingU1).state ≠
      Index.converse hexCrypto echoAgent (u1Text "What is my balance?")
        (Index.onText hexCrypto echoAgent (u1Text "abc") awaitingU1).state [] := by
  decide

/-- C4, what the code does: with the import flag set for the sender, a text of
64 hexadecimal characters is imported and then, with no `return` after the
import, the same text is passed to `agent.stream` on the sender's thread
and is recorded in the agent memory; only a text that fails the format check
is kept from the agent. -/
theorem onText_valid_key_reaches_agent {K : Type} (c : Crypto K) (hc : c.Lawful)
    (agent : Agent K) (ctx : Ctx) (st : Index.State)
    (hflag : Index.awaitingKey st.userImportState ctx.fromId = true) :
    (isHex64 ctx.text = true →
      Effect.agentStream ctx.fromId ctx.text ∈ (Index.onText c agent ctx st).out ∧
      (ctx.fromId, ctx.text) ∈ (Index.onText c agent ctx st).state.memorySaver) ∧
    (isHex64 ctx.text = false →
      ∀ thread text, Effect.agentStream thread text ∉ (Index.onText c agent ctx st).out) := by
  constructor
  · intro hkey
    obtain ⟨k, hk⟩ := hc.1 _ hkey
    rw [onText_import_outcome c hc agent ctx st k hflag hkey hk]
    exact ⟨List.mem_cons_of_mem _ (List.mem_cons_self _ _),
      List.mem_append_right _ (List.mem_singleton_self _)⟩
  · intro hbad thread text
    simp [Index.onText, hflag, hbad]

theorem onText_valid_key_reaches_agent_witness :
    hexCrypto.Lawful ∧
    Index.awaitingKey awaitingU1.userImportState (u1Text key11).fromId = true ∧
    isHex64 (u1Text key11).text = true ∧
    Effect.agentStream "u1" key11 ∈
      (Index.onText hexCrypto echoAgent (u1Text key11) awaitingU1).out ∧
    ("u1", key11) ∈ (Index.onText hexCrypto echoAgent (u1Text key11) awaitingU1).state.memorySaver :=
  ⟨hexCrypto_lawful, by decide, by decide,
   (onText_valid_key_reaches_agent hexCrypto hexCrypto_lawful echoAgent (u1Text key11)
     awaitingU1 (by decide)).1 (by decide)⟩

/-! ## Handlers of `src/bot.js` -/

theorem findOne_eq_head_filter (users : List UserDoc) (uid : String) :
    findOne users uid = (users.filter (fun d => decide (d.userId = uid))).head? := by
  induction users with
  | nil => rfl
  | cons x xs ih =>
    unfold findOne
    by_cases hx : x.userId = uid
    · simp [List.filter_cons, hx]
    · simp [List.filter_cons, hx, ih]

/-- C7: `view_private_key` changes nothing in the store, and every message it
sends is either the message with the private key, sent to the chat whose id is
the requesting user id and carrying the key of the account found under that
same user id, or the fixed notice that no key was found, which carries no key;
two stores with the same accounts of the requesting user give the same output,
whatever the accounts of other users are. -/
theorem view_private_key_only_to_owner (ctx : Ctx) (st : Store) :
    (Bot.view_private_key ctx st).state = st ∧
    (∀ chat text, Effect.message chat text ∈ (Bot.view_private_key ctx st).out →
      (chat = ctx.fromId ∧
        ∃ d, findOne st.users ctx.fromId = some d ∧ d.userId = ctx.fromId ∧
          text = Bot.privateKeyMessage d.privateKey) ∨
      (chat = ctx.chatId ∧ findOne st.users ctx.fromId = none ∧
        text = Bot.noPrivateKeyNotice)) ∧
    (∀ st2 : Store,
      st2.users.filter (fun d => decide (d.userId = ctx.fromId)) =
        st.users.filter (fun d => decide (d.userId = ctx.fromId)) →
      (Bot.view_private_key ctx st2).out = (Bot.view_private_key ctx st).out) := by
  refine ⟨?_, ?_, ?_⟩
  · unfold Bot.view_private_key
    split <;> rfl
  · intro chat text hmem
    unfold Bot.view_private_key at hmem
    split at hmem
    · rename_i d hd
      simp only [List.mem_cons, Effect.message.injEq, List.mem_singleton, reduceCtorEq,
        or_false, List.not_mem_nil] at hmem
      exact Or.inl ⟨hmem.1, d, hd, findOne_userId hd, hmem.2⟩
    · rename_i hd
      simp only [List.mem_cons, Effect.message.injEq, List.mem_singleton, reduceCtorEq,
        or_false, List.not_mem_nil] at hmem
      exact Or.inr ⟨hmem.1, hd, hmem.2⟩
  · intro st2 hsame
    have h : findOne st2.users ctx.fromId = findOne st.users ctx.fromId := by
      rw [findOne_eq_head_filter, findOne_eq_head_filter, hsame]
    unfold Bot.view_private_key
    rw [h]
    split <;> rfl

theorem toggle_alerts_of_found (ctx : Ctx) (st : Store) (d : UserDoc)
    (h : findOne st.users ctx.fromId = some d) :
    (Bot.toggle_alerts ctx st).state =
      { users := updateOne st.users ctx.fromId
                   (fun x => { x with alertsEnabled := some (Bot.notAlerts d.alertsEnabled) })
        rng := st.rng } := by
  simp [Bot.toggle_alerts, h]

theorem toggle_alerts_twice_users (ctx : Ctx) (st : Store) (d : UserDoc)
    (h : findOne st.users ctx.fromId = some d) :
    (Bot.toggle_alerts ctx (Bot.toggle_alerts ctx st).state).state =
      { users := updateOne st.users ctx.fromId
                   (fun x => { x with alertsEnabled := some (!Bot.notAlerts d.alertsEnabled) })
        rng := st.rng } := by
  have h1 := toggle_alerts_of_found ctx st d h
  have hu : d.userId = ctx.fromId := findOne_userId h
  have hd1 : findOne (Bot.toggle_alerts ctx st).state.users ctx.fromId =
      some { d with alertsEnabled := some (Bot.notAlerts d.alertsEnabled) } := by
    rw [h1]
    exact findOne_updateOne _ h hu
  rw [toggle_alerts_of_found ctx _ _ hd1, h1]
  simp only []
  rw [updateOne_updateOne _ _ h hu]
  cases d.alertsEnabled with
  | none => rfl
  | some b => cases b <;> rfl

/-- C9, as amended: for a user with a stored account, two runs of
`toggle_alerts` in sequence leave the whole store as it was when the account's
`alertsEnabled` field holds a boolean; when the field is absent they change
only that field of that account, which ends as false. -/
theorem toggle_alerts_twice (ctx : Ctx) (st : Store) (d : UserDoc)
    (hfound : findOne st.users ctx.fromId = some d) :
    (∀ b, d.alertsEnabled = some b →
      (Bot.toggle_alerts ctx (Bot.toggle_alerts ctx st).state).state = st) ∧
    (d.alertsEnabled = none →
      (Bot.toggle_alerts ctx (Bot.toggle_alerts ctx st).state).state =
        { users := updateOne st.users ctx.fromId (fun x => { x with alertsEnabled := some false })
          rng := st.rng }) := by
  rw [toggle_alerts_twice_users ctx st d hfound]
  constructor
  · intro b hb
    have hfix : (fun x : UserDoc => { x with alertsEnabled := some (!Bot.notAlerts d.alertsEnabled) })
        d = d := by
      rw [hb]
      cases d with
      | mk u pk sk ae ip ig =>
        simp only at hb
        subst hb
        cases b <;> rfl
    rw [updateOne_of_fixed _ hfound hfix]
  · intro hn
    rw [hn]
    rfl

theorem toggle_alerts_twice_witness :
    findOne [botDoc 1, indexDoc 2] (u1Text "").fromId = some (indexDoc 2) ∧
    findOne [botDoc 1, indexDoc 2] { u1Text "" with fromId := "u2" }.fromId = some (botDoc 1) ∧
    (botDoc 1).alertsEnabled = some false ∧
    (Bot.toggle_alerts { u1Text "" with fromId := "u2" }
        (Bot.toggle_alerts { u1Text "" with fromId := "u2" }
          { users := [botDoc 1, indexDoc 2], rng := 3 }).state).state =
      { users := [botDoc 1, indexDoc 2], rng := 3 } ∧
    (indexDoc 2).alertsEnabled = none ∧
    (Bot.toggle_alerts (u1Text "")
        (Bot.toggle_alerts (u1Text "") { users := [botDoc 1, indexDoc 2], rng := 3 }).state).state =
      { users := updateOne [botDoc 1, indexDoc 2] "u1"
                   (fun x => { x with alertsEnabled := some false })
        rng := 3 } :=
  ⟨by decide, by decide, rfl,
   (toggle_alerts_twice { u1Text "" with fromId := "u2" }
      { users := [botDoc 1, indexDoc 2], rng := 3 } (botDoc 1) (by decide)).1 false rfl,
   rfl,
   (toggle_alerts_twice (u1Text "") { users := [botDoc 1, indexDoc 2], rng := 3 } (indexDoc 2)
      (by decide)).2 rfl⟩

/-- C9, the claim as written fails: the account that `src/index.js` stores for
`u1` has no `alertsEnabled` field, and after two runs of `toggle_alerts` the
field holds false, so the stored account is no longer the original one. -/
theorem toggle_alerts_twice_counterexample :
    findOne [indexDoc 0] "u1" = some (indexDoc 0) ∧
    (indexDoc 0).alertsEnabled = none ∧
    findOne (Bot.toggle_alerts (u1Text "")
        (Bot.toggle_alerts (u1Text "") { users := [indexDoc 0], rng := 1 }).state).state.users
        "u1" = some { indexDoc 0 with alertsEnabled := some false } ∧
    (Bot.toggle_alerts (u1Text "")
        (Bot.toggle_alerts (u1Text "") { users := [indexDoc 0], rng := 1 }).state).state.users ≠
      [indexDoc 0] := by
  decide

/-! ## Two calls of `getOrCreateUserWallet` in flight -/

/-- The two atomic steps of a call, run back to back, are the function. -/
theorem call_steps_eq_getOrCreateUserWallet {K : Type} (c : Crypto K) (uid : String)
    (st : Store) :
    Index.Call.step c uid (Index.Call.step c uid .start st).1 (Index.Call.step c uid .start st).2 =
      (.done (Index.getOrCreateUserWallet c uid st).1,
       (Index.getOrCreateUserWallet c uid st).2) := by
  simp only [Index.Call.step, Index.getOrCreateUserWallet]
  cases findOne st.users uid with
  | none => rfl
  | some d =>
    simp only [Index.Call.step]
    cases decodeStored c d <;> rfl

theorem accountCount_append_two {users : List UserDoc} {uid : String} (e1 e2 : UserDoc)
    (h : findOne users uid = none) (he1 : e1.userId = uid) (he2 : e2.userId = uid) :
    accountCount (users ++ [e1] ++ [e2]) uid = 2 := by
  have h1 := accountCount_append_new e1 h he1
  have h2 := accountCount_insertOne (users ++ [e1]) uid e2
  simp only [insertOne] at h2
  rw [h2, h1, if_pos he2]

/-- Every order of the four steps in which each call takes two is listed. -/
theorem interleavings_complete (s : List Bool) (hlen : s.length = 4)
    (hcount : s.count true = 2) : s ∈ Index.interleavings := by
  match s, hlen with
  | [a, b, c, d], _ =>
    revert hcount
    cases a <;> cases b <;> cases c <;> cases d <;> decide

/-- Both calls read before either writes: two accounts. -/
theorem race_reads_first {K : Type} (c : Crypto K) (uid : String) (st : Store)
    (hnone : findOne st.users uid = none) (a b : Bool) :
    accountCount
      (Index.runSchedule c uid [a, !a, b, !b] { first := .start, second := .start, store := st }
        ).store.users uid = 2 := by
  cases a <;> cases b <;>
    simp only [Index.runSchedule, Index.Call.step, hnone, Bool.not_true, Bool.not_false,
      insertOne] <;>
    exact accountCount_append_two _ _ hnone rfl rfl

/-- One call finishes before the other starts: one account. -/
theorem race_sequential {K : Type} (c : Crypto K) (uid : String) (st : Store)
    (hnone : findOne st.users uid = none) (a : Bool) :
    accountCount
      (Index.runSchedule c uid [a, a, !a, !a] { first := .start, second := .start, store := st }
        ).store.users uid = 1 := by
  have hdoc : findOne (st.users ++ [Index.newUserDoc c uid { privateKey := c.generate st.rng }])
      uid = some (Index.newUserDoc c uid { privateKey := c.generate st.rng }) :=
    findOne_insertOne_of_none _ hnone rfl
  cases a <;>
    simp only [Index.runSchedule, Index.Call.step, hnone, Bool.not_true, Bool.not_false,
      insertOne, hdoc] <;>
    cases decodeStored c (Index.newUserDoc c uid { privateKey := c.generate st.rng }) <;>
    exact accountCount_append_new
      (Index.newUserDoc c uid { privateKey := c.generate st.rng }) hnone rfl

/-- C10, as amended: `getOrCreateUserWallet` is a `findOne` followed by an
`insertOne`. For a user without a stored account, two calls that run one after
the other leave exactly one account of that user, and in every interleaving in
which the second call reads before the first has written, two accounts of that
user are stored. -/
theorem concurrent_getOrCreate_accounts {K : Type} (c : Crypto K) (uid : String) (st : Store)
    (hnone : findOne st.users uid = none) (s : List Bool) (hs : s ∈ Index.interleavings) :
    accountCount
      (Index.runSchedule c uid s { first := .start, second := .start, store := st }).store.users
      uid = if Index.sequential s = true then 1 else 2 := by
  simp only [Index.interleavings, List.mem_cons, List.mem_singleton, List.not_mem_nil,
    or_false] at hs
  rcases hs with rfl | rfl | rfl | rfl | rfl | rfl
  · exact race_sequential c uid st hnone false
  · exact race_reads_first c uid st hnone false false
  · exact race_reads_first c uid st hnone false true
  · exact race_reads_first c uid st hnone true false
  · exact race_reads_first c uid st hnone true true
  · exact race_sequential c uid st hnone true

theorem concurrent_getOrCreate_accounts_witness :
    findOne [botDoc 4] "u1" = none ∧
    [true, true, false, false] ∈ Index.interleavings ∧
    accountCount
      (Index.runSchedule hexCrypto "u1" [true, true, false, false]
        { first := .start, second := .start, store := { users := [botDoc 4], rng := 5 } }
        ).store.users "u1" = if Index.sequential [true, true, false, false] = true then 1 else 2 :=
  ⟨by decide, by decide,
   concurrent_getOrCreate_accounts hexCrypto "u1" { users := [botDoc 4], rng := 5 } (by decide)
     [true, true, false, false] (by decide)⟩

/-- C10, the claim as written fails: on the empty store, when both calls for
`u1` run their `findOne` before either runs its `insertOne`, two accounts of
`u1` are stored, with different keys. -/
theorem concurrent_getOrCreate_counterexample :
    findOne emptyStore.users "u1" = none ∧
    [false, true, false, true] ∈ Index.interleavings ∧
    (Index.runSchedule hexCrypto "u1" [false, true, false, true]
      { first := .start, second := .start, store := emptyStore }).store.users =
        [indexDoc 0, indexDoc 1] ∧
    indexDoc 0 ≠ indexDoc 1 ∧
    accountCount
      (Index.runSchedule hexCrypto "u1" [false, true, false, true]
        { first := .start, second := .start, store := emptyStore }).store.users "u1" = 2 := by
  decide

end MoveBot
